import Mathlib

/-!
Shallow embedding of the choropleth color-scale / data-normalization module
(`src/utils/colorScale.js`) and the state-navigation module
(`src/utils/stateNavigation.js`) of the `carto` dashboard, together with
theorems settling the specification claims about them.

JavaScript numbers are modelled exactly where the claims depend on their
special values: a `JSNum` is a finite rational, a signed infinity, or NaN,
and the arithmetic operators below reproduce the IEEE-754 / ECMAScript
semantics for those values (finite arithmetic is idealized as exact rational
arithmetic; negative zero is identified with zero).  `JSVal` adds the
`null` / `undefined` values that the data maps may contain.
-/

namespace Carto

/-- A JavaScript number: a finite value (modelled exactly as a rational),
a signed infinity (`inf true` is `+Infinity`), or `NaN`. -/
inductive JSNum where
  | fin (q : ℚ)
  | inf (pos : Bool)
  | nan
  deriving DecidableEq, Repr

/-- A JavaScript value as stored in a `ValueMap`: a number, `null`, or
`undefined`. -/
inductive JSVal where
  | num (n : JSNum)
  | null
  | undef
  deriving DecidableEq, Repr

namespace JSNum

/-- Unary minus on JS numbers. -/
def jneg : JSNum → JSNum
  | fin q => fin (-q)
  | inf p => inf (!p)
  | nan => nan

/-- JS addition: `NaN` propagates; `Infinity + (-Infinity)` is `NaN`. -/
def jadd : JSNum → JSNum → JSNum
  | nan, _ => nan
  | _, nan => nan
  | fin a, fin b => fin (a + b)
  | inf p, fin _ => inf p
  | fin _, inf p => inf p
  | inf p, inf q => if p = q then inf p else nan

/-- JS subtraction, `a - b = a + (-b)`. -/
def jsub (a b : JSNum) : JSNum := jadd a (jneg b)

/-- JS multiplication: `NaN` propagates; `Infinity * 0` is `NaN`;
otherwise infinities combine by sign. -/
def jmul : JSNum → JSNum → JSNum
  | nan, _ => nan
  | _, nan => nan
  | fin a, fin b => fin (a * b)
  | inf p, fin b => if b = 0 then nan else inf (p = decide (0 < b))
  | fin a, inf p => if a = 0 then nan else inf (p = decide (0 < a))
  | inf p, inf q => inf (p = q)

/-- JS division: `NaN` propagates; `0 / 0` and `Infinity / Infinity` are
`NaN`; a nonzero finite number divided by zero is a signed infinity
(negative zero is not modelled, so the sign comes from the numerator);
a finite number divided by an infinity is `0`. -/
def jdiv : JSNum → JSNum → JSNum
  | nan, _ => nan
  | _, nan => nan
  | fin a, fin b =>
      if b = 0 then (if a = 0 then nan else inf (decide (0 < a)))
      else fin (a / b)
  | fin _, inf _ => fin 0
  | inf p, fin b => if b = 0 then inf p else inf (p = decide (0 < b))
  | inf _, inf _ => nan

/-- `Math.floor`: identity on infinities and `NaN`. -/
def jfloor : JSNum → JSNum
  | fin q => fin ⌊q⌋
  | inf p => inf p
  | nan => nan

/-- `Math.min`: `NaN` propagates; `-Infinity` absorbs; `+Infinity` is
neutral. -/
def jmin : JSNum → JSNum → JSNum
  | nan, _ => nan
  | _, nan => nan
  | fin a, fin b => fin (Min.min a b)
  | inf true, x => x
  | inf false, _ => inf false
  | fin _, inf false => inf false
  | x, inf true => x

/-- `Math.max`: `NaN` propagates; `+Infinity` absorbs; `-Infinity` is
neutral. -/
def jmax : JSNum → JSNum → JSNum
  | nan, _ => nan
  | _, nan => nan
  | fin a, fin b => fin (Max.max a b)
  | inf false, x => x
  | inf true, _ => inf true
  | fin _, inf true => inf true
  | x, inf false => x

/-- The JS comparison `a < c` against a finite constant: false when `a` is
`NaN` or `+Infinity`, true when `a` is `-Infinity`. -/
def jlt : JSNum → ℚ → Bool
  | nan, _ => false
  | fin a, c => decide (a < c)
  | inf true, _ => false
  | inf false, _ => true

/-- The non-strict JS comparison `a <= b` (used only to state ordering
facts; false whenever either side is `NaN`). -/
def jle : JSNum → JSNum → Bool
  | nan, _ => false
  | _, nan => false
  | inf false, _ => true
  | _, inf true => true
  | inf true, _ => false
  | _, inf false => false
  | fin a, fin b => decide (a ≤ b)

/-- Whether a JS number is a finite number (`Number.isFinite`). -/
def isFin : JSNum → Bool
  | fin _ => true
  | _ => false

end JSNum

/-- JS array subscript `l[i]` for a numeric index: `undefined` (`none`)
unless the index is a nonnegative integer within bounds. -/
def jsIndex (l : List String) : JSNum → Option String
  | JSNum.fin q => if 0 ≤ q ∧ q.den = 1 then l.get? q.num.toNat else none
  | _ => none

/-- The JS `x || y` fallback on a possibly-`undefined` string: returns `y`
when `x` is `undefined` or the (falsy) empty string. -/
def jsOr (x : Option String) (y : Option String) : Option String :=
  match x with
  | some s => if s = "" then y else some s
  | none => y

/-- `Math.round(q)` for a finite number: `⌊q + 1/2⌋` (halves round toward
`+Infinity`, exactly as in ECMAScript). -/
def jsRound (q : ℚ) : ℤ := ⌊q + 1 / 2⌋

open JSNum

/-! ## `src/utils/colorScale.js` -/

/-- The predefined palettes of `COLOR_SCALES` in `colorScale.js`. -/
structure ColorScales where
  blue : List String
  green : List String
  orange : List String
  purple : List String
  red : List String
  deriving DecidableEq, Repr

/-- `COLOR_SCALES`: the five predefined palettes, light to dark. -/
def COLOR_SCALES : ColorScales :=
  { blue := ["#eff6ff", "#dbeafe", "#bfdbfe", "#93c5fd", "#60a5fa",
             "#3b82f6", "#2563eb", "#1d4ed8", "#1e40af"]
    green := ["#f0fdf4", "#dcfce7", "#bbf7d0", "#86efac", "#4ade80",
              "#22c55e", "#16a34a", "#15803d", "#166534"]
    orange := ["#fff7ed", "#ffedd5", "#fed7aa", "#fdba74", "#fb923c",
               "#f97316", "#ea580c", "#c2410c", "#9a3412"]
    purple := ["#faf5ff", "#f3e8ff", "#e9d5ff", "#d8b4fe", "#c084fc",
               "#a855f7", "#9333ea", "#7e22ce", "#6b21a8"]
    red := ["#fef2f2", "#fee2e2", "#fecaca", "#fca5a5", "#f87171",
            "#ef4444", "#dc2626", "#b91c1c", "#991b1b"] }

/-- `getColor(value, min, max, colorScale)` from `colorScale.js`.
The source guards `value == null || isNaN(value)` first (this catches
`null`, `undefined` and `NaN`), then the degenerate `min === max` range,
then normalizes, floors, clamps and indexes.  The range endpoints are
taken finite (they come from data); `value` ranges over all JS values, so
the arithmetic branch uses the JS-number operators, which reproduce the
source's behavior when `value` is an infinity.  The result is `none`
exactly when the JS function returns `undefined` (out-of-bounds index). -/
def getColor (value : JSVal) (min max : ℚ) (colorScale : List String) :
    Option String :=
  match value with
  | JSVal.null | JSVal.undef | JSVal.num JSNum.nan => some "#e5e7eb"
  | JSVal.num n =>
    if min = max then
      colorScale.get? (colorScale.length / 2)
    else
      let normalized := jdiv (jsub n (fin min)) (jsub (fin max) (fin min))
      let index := jfloor (jmul normalized (fin ((colorScale.length : ℚ) - 1)))
      let clampedIndex := jmax (fin 0) (jmin (fin ((colorScale.length : ℚ) - 1)) index)
      jsIndex colorScale clampedIndex

/-- One legend entry pushed by `generateLegend`: the interval bounds are
stored through `Math.round` (hence integers); the color is the JS array
lookup with the `||` fallback, which can be `undefined` for an empty
palette. -/
structure LegendItem where
  min : ℤ
  max : ℤ
  color : Option String
  deriving DecidableEq, Repr

/-- `generateLegend(min, max, steps, colorScale)` from `colorScale.js`.
The loop index `i` runs over `0, …, steps-1`; each interval's bounds are
`min + step*i` and `min + step*(i+1)` (exact rational arithmetic, stored
rounded), and the color index is `floor((i/(steps-1)) * (len-1))`
computed with JS semantics — at `steps = 1` this is `floor(0/0 * …) = NaN`,
so the array lookup is `undefined` and the `||` fallback to the last
palette entry applies. -/
def generateLegend (min max : ℚ) (steps : ℕ) (colorScale : List String) :
    List LegendItem :=
  let range := max - min
  let step := range / (steps : ℚ)
  (List.range steps).map (fun (i : ℕ) =>
    let intervalMin := min + step * (i : ℚ)
    let intervalMax := min + step * ((i : ℚ) + 1)
    let colorIndex :=
      jfloor (jmul (jdiv (fin (i : ℚ)) (fin ((steps : ℚ) - 1)))
        (fin ((colorScale.length : ℚ) - 1)))
    { min := jsRound intervalMin
      max := jsRound intervalMax
      color := jsOr (jsIndex colorScale colorIndex)
                 (colorScale.get? (colorScale.length - 1)) })

/-- The range record returned by `getDataRange`. -/
structure Range where
  min : JSNum
  max : JSNum
  deriving DecidableEq, Repr

/-- The filter of `getDataRange`: `v != null && !isNaN(v)` keeps exactly
the numeric entries that are not `NaN` (loose `!= null` discards both
`null` and `undefined`; infinities pass `!isNaN`). -/
def jsValidNum : JSVal → Option JSNum
  | JSVal.num JSNum.nan => none
  | JSVal.num n => some n
  | JSVal.null => none
  | JSVal.undef => none

/-- `getDataRange(data)` from `colorScale.js`.  `Object.values` is the
list of the map's values; `Math.min(...values)` / `Math.max(...values)`
are folds of `Math.min` / `Math.max` from their neutral elements
`+Infinity` / `-Infinity`. -/
def getDataRange (data : List (String × JSVal)) : Range :=
  let values := (data.map Prod.snd).filterMap jsValidNum
  if values.isEmpty then
    { min := fin 0, max := fin 0 }
  else
    { min := values.foldl jmin (inf true)
      max := values.foldl jmax (inf false) }

/-- Three-digit zero-padded rendering of `n < 1000`, one thousands group
of the en-US locale. -/
def pad3 (n : ℕ) : String :=
  if n < 10 then "00" ++ toString n
  else if n < 100 then "0" ++ toString n
  else toString n

/-- en-US digit grouping of a natural number: groups of three separated by
commas, as produced by `Intl.NumberFormat('en-US')`. -/
def groupNat (n : ℕ) : String :=
  if n < 1000 then toString n
  else groupNat (n / 1000) ++ "," ++ pad3 (n % 1000)
  termination_by n
  decreasing_by omega

/-- Drop trailing `'0'` characters (a fractional part is rendered with at
most three significant digits by the en-US default format). -/
def stripTrailingZeros (s : String) : String :=
  String.mk ((s.toList.reverse.dropWhile (fun c => c = '0')).reverse)

/-- Modelled `Intl.NumberFormat('en-US').format`: sign, grouped integer
part, and up to three fractional digits (the locale default), rounding
half away from zero; infinities render as the infinity symbol and `NaN`
as `"NaN"`. -/
def formatEnUS : JSNum → String
  | JSNum.nan => "NaN"
  | JSNum.inf true => "∞"
  | JSNum.inf false => "-∞"
  | JSNum.fin q =>
    let s := if q < 0 then "-" else ""
    let scaled := (⌊|q| * 1000 + 1 / 2⌋).toNat
    let ip := scaled / 1000
    let fp := scaled % 1000
    s ++ groupNat ip ++ (if fp = 0 then "" else "." ++ stripTrailingZeros (pad3 fp))

/-- Modelled `Intl.NumberFormat('en-US', {style: 'currency', currency:
'USD', minimumFractionDigits: 0, maximumFractionDigits: 0}).format`:
a dollar sign after the sign, whole units rounded half away from zero. -/
def formatUSD : JSNum → String
  | JSNum.nan => "$NaN"
  | JSNum.inf true => "$∞"
  | JSNum.inf false => "-$∞"
  | JSNum.fin q =>
    (if q < 0 then "-" else "") ++ "$" ++ groupNat (⌊|q| + 1 / 2⌋).toNat

/-- `Number.prototype.toFixed(1)`: sign, then the absolute value rounded
to one decimal digit with ties away from zero (the ECMAScript algorithm
negates first, then picks the larger candidate on ties). -/
def toFixed1 : JSNum → String
  | JSNum.nan => "NaN"
  | JSNum.inf true => "Infinity"
  | JSNum.inf false => "-Infinity"
  | JSNum.fin q =>
    let k := (⌊|q| * 10 + 1 / 2⌋).toNat
    (if q < 0 then "-" else "") ++ toString (k / 10) ++ "." ++ toString (k % 10)

/-- `formatNumber(value, type)` from `colorScale.js`.  The guard
`value == null || isNaN(value)` returns `'N/A'` for `null`, `undefined`
and `NaN` (but not for infinities, which flow into the formatters); the
`switch` sends `'percent'` and `'currency'` to their formatters and every
other tag — `'number'` and the `default` case alike — to the plain en-US
number format.  The omitted-argument default of the source is
`type = 'number'`. -/
def formatNumber (value : JSVal) (type : String) : String :=
  match value with
  | JSVal.null | JSVal.undef | JSVal.num JSNum.nan => "N/A"
  | JSVal.num n =>
    if type = "percent" then toFixed1 (jmul n (fin 100)) ++ "%"
    else if type = "currency" then formatUSD n
    else formatEnUS n

/-- The unrounded boundary of `generateLegend`'s `i`-th interval
(`min + step * i` with `step = (max - min) / steps`), the quantity whose
`Math.round` is stored in the result. -/
def legendBound (min max : ℚ) (steps i : ℕ) : ℚ :=
  min + ((max - min) / (steps : ℚ)) * (i : ℚ)

/-- The palette index `getColor` selects for a finite value on a
non-degenerate range: `floor(normalized * (len - 1))` clamped into
`[0, len - 1]`. -/
def getColorIndex (value min max : ℚ) (len : ℕ) : ℕ :=
  (Max.max 0 (Min.min ((len : ℤ) - 1)
    ⌊(value - min) / (max - min) * ((len : ℚ) - 1)⌋)).toNat

/-! ## `src/utils/stateNavigation.js` -/

/-- The transition interpolator attached by the navigation code
(`new FlyToInterpolator()`). -/
inductive Interpolator where
  | flyTo
  deriving DecidableEq, Repr

/-- A deck.gl view state as built by `stateNavigation.js`.  The two
transition fields are `none` when the JS object carries no such keys
(as in `DEFAULT_VIEW_STATE`). -/
structure ViewState where
  longitude : JSNum
  latitude : JSNum
  zoom : ℚ
  pitch : ℚ
  bearing : ℚ
  transitionDuration : Option ℕ
  transitionInterpolator : Option Interpolator
  deriving DecidableEq, Repr

/-- `DEFAULT_VIEW_STATE`: the national (Mexico) overview.  It carries no
transition fields. -/
def DEFAULT_VIEW_STATE : ViewState :=
  { longitude := fin (-102.5528)
    latitude := fin 23.6345
    zoom := 4.5
    pitch := 0
    bearing := 0
    transitionDuration := none
    transitionInterpolator := none }

/-- A nested GeoJSON coordinate structure: either a `[lng, lat]` point or
an array of nested coordinate arrays (ring / polygon / multipolygon). -/
inductive Coords where
  | pt (lng lat : ℚ)
  | arr (cs : List Coords)

/-- A GeoJSON feature, flattened to the two fields the navigation code
reads: `properties.id` and `geometry.coordinates`. -/
structure Feature where
  id : String
  coordinates : Coords

/-- The running min/max accumulator of `getStateBoundingBox`, initialized
to `Infinity` / `-Infinity`. -/
structure BBox where
  minLng : JSNum
  maxLng : JSNum
  minLat : JSNum
  maxLat : JSNum
  deriving DecidableEq, Repr

mutual
/-- The inner `processCoordinates` recursion of `getStateBoundingBox`:
a leaf `[lng, lat]` updates the four running extrema with `Math.min` /
`Math.max`; an array is processed element by element, left to right
(`coords.forEach(processCoordinates)`). -/
def processCoordinates : Coords → BBox → BBox
  | Coords.pt lng lat, acc =>
      { minLng := jmin acc.minLng (fin lng)
        maxLng := jmax acc.maxLng (fin lng)
        minLat := jmin acc.minLat (fin lat)
        maxLat := jmax acc.maxLat (fin lat) }
  | Coords.arr cs, acc => processCoordList cs acc

/-- Left-to-right traversal of a coordinate array. -/
def processCoordList : List Coords → BBox → BBox
  | [], acc => acc
  | c :: cs, acc => processCoordList cs (processCoordinates c acc)
end

/-- `getStateBoundingBox(geojson, stateId)`: `null` for a missing or
feature-less collection, `null` when no feature's `properties.id` matches,
otherwise the accumulated extrema over every coordinate of the matching
feature (starting from `Infinity` / `-Infinity`). -/
def getStateBoundingBox (geojson : Option (List Feature)) (stateId : String) :
    Option BBox :=
  match geojson with
  | none => none
  | some features =>
    match features.find? (fun f => f.id = stateId) with
    | none => none
    | some feature =>
      some (processCoordinates feature.coordinates
        { minLng := inf true, maxLng := inf false
          minLat := inf true, maxLat := inf false })

/-- The zoom step function of `calculateViewStateForBounds`: the chain of
`maxDiff < c` comparisons with JS semantics (every comparison is false on
`NaN`, so `NaN` falls through to the final tier). -/
def zoomFor (maxDiff : JSNum) : ℚ :=
  if jlt maxDiff 1 then 8
  else if jlt maxDiff 2 then 7
  else if jlt maxDiff 4 then 6
  else if jlt maxDiff 6 then 5.5
  else if jlt maxDiff 8 then 5
  else 4.5

/-- `calculateViewStateForBounds(bounds, options)`: a falsy `bounds`
returns `DEFAULT_VIEW_STATE` unchanged (no transition fields); otherwise
the center is the midpoint on each axis, the zoom is the step function of
`max(latDiff, lngDiff)`, pitch and bearing are zero, and the 1500 ms
fly-to transition descriptor is attached.  (The destructured `padding`
option of the source is never used, so it is not modelled.) -/
def calculateViewStateForBounds (bounds : Option BBox) : ViewState :=
  match bounds with
  | none => DEFAULT_VIEW_STATE
  | some b =>
    let longitude := jdiv (jadd b.minLng b.maxLng) (fin 2)
    let latitude := jdiv (jadd b.minLat b.maxLat) (fin 2)
    let latDiff := jsub b.maxLat b.minLat
    let lngDiff := jsub b.maxLng b.minLng
    let maxDiff := jmax latDiff lngDiff
    { longitude := longitude
      latitude := latitude
      zoom := zoomFor maxDiff
      pitch := 0
      bearing := 0
      transitionDuration := some 1500
      transitionInterpolator := some Interpolator.flyTo }

/-! ## Basic facts about the JS-number operators on finite values -/

theorem jsub_fin (a b : ℚ) : jsub (fin a) (fin b) = fin (a - b) := by
  simp [jsub, jadd, jneg, sub_eq_add_neg]

theorem jdiv_fin (a b : ℚ) (hb : b ≠ 0) : jdiv (fin a) (fin b) = fin (a / b) := by
  simp [jdiv, hb]

theorem jmul_fin (a b : ℚ) : jmul (fin a) (fin b) = fin (a * b) := rfl

theorem jfloor_fin (a : ℚ) : jfloor (fin a) = fin (⌊a⌋ : ℚ) := rfl

theorem jmin_fin (a b : ℚ) : jmin (fin a) (fin b) = fin (Min.min a b) := rfl

theorem jmax_fin (a b : ℚ) : jmax (fin a) (fin b) = fin (Max.max a b) := rfl

theorem jsIndex_intCast (l : List String) (z : ℤ) :
    jsIndex l (fin (z : ℚ)) = if 0 ≤ z then l.get? z.toNat else none := by
  simp [jsIndex, Rat.den_intCast, Rat.num_intCast]

/-- On a non-degenerate range, `getColor` at a finite value is exactly the
palette lookup at `getColorIndex`. -/
theorem getColor_fin_eq (q min max : ℚ) (palette : List String)
    (h : min ≠ max) :
    getColor (JSVal.num (fin q)) min max palette =
      palette.get? (getColorIndex q min max palette.length) := by
  have hsub : max - min ≠ 0 := sub_ne_zero.mpr (Ne.symm h)
  have hcast : (fin (Max.max 0 (Min.min ((palette.length : ℚ) - 1)
      (⌊(q - min) / (max - min) * ((palette.length : ℚ) - 1)⌋ : ℚ)))) =
      fin (((Max.max 0 (Min.min ((palette.length : ℤ) - 1)
        ⌊(q - min) / (max - min) * ((palette.length : ℚ) - 1)⌋) : ℤ) : ℚ)) := by
    congr 1
    push_cast
    rfl
  simp only [getColor, if_neg h, jsub_fin, jdiv_fin _ _ hsub, jmul_fin,
    jfloor_fin, jmin_fin, jmax_fin, hcast, jsIndex_intCast, getColorIndex]
  rw [if_pos (le_max_left 0 _)]

/-- The clamped index is always within the palette. -/
theorem getColorIndex_lt (v min max : ℚ) (len : ℕ) (hlen : 1 ≤ len) :
    getColorIndex v min max len < len := by
  unfold getColorIndex
  have h1 : Min.min ((len : ℤ) - 1)
      ⌊(v - min) / (max - min) * ((len : ℚ) - 1)⌋ ≤ (len : ℤ) - 1 :=
    min_le_left _ _
  have h2 : Max.max 0 (Min.min ((len : ℤ) - 1)
      ⌊(v - min) / (max - min) * ((len : ℚ) - 1)⌋) ≤ (len : ℤ) - 1 :=
    max_le (by omega) h1
  omega

/-- A value below the range clamps to index `0`. -/
theorem getColorIndex_below (v min max : ℚ) (len : ℕ)
    (hr : min < max) (hv : v < min) : getColorIndex v min max len = 0 := by
  unfold getColorIndex
  have hratio : (v - min) / (max - min) < 0 :=
    div_neg_of_neg_of_pos (by linarith) (by linarith)
  have hx : ⌊(v - min) / (max - min) * ((len : ℚ) - 1)⌋ ≤ 0 ∨
      Min.min ((len : ℤ) - 1)
        ⌊(v - min) / (max - min) * ((len : ℚ) - 1)⌋ ≤ 0 := by
    rcases Nat.eq_zero_or_pos len with h0 | hpos
    · right
      subst h0
      exact le_trans (min_le_left _ _) (by norm_num)
    · left
      have hnn : (0 : ℚ) ≤ (len : ℚ) - 1 := by
        have : (1 : ℚ) ≤ (len : ℚ) := by exact_mod_cast hpos
        linarith
      exact Int.floor_nonpos (mul_nonpos_iff.mpr (Or.inr ⟨hratio.le, hnn⟩))
  have hmin : Min.min ((len : ℤ) - 1)
      ⌊(v - min) / (max - min) * ((len : ℚ) - 1)⌋ ≤ 0 := by
    rcases hx with h | h
    · exact le_trans (min_le_right _ _) h
    · exact h
  omega

/-- A value above the range clamps to the last index. -/
theorem getColorIndex_above (v min max : ℚ) (len : ℕ)
    (hr : min < max) (hv : max < v) (hlen : 1 ≤ len) :
    getColorIndex v min max len = len - 1 := by
  unfold getColorIndex
  have hnn : (0 : ℚ) ≤ (len : ℚ) - 1 := by
    have : (1 : ℚ) ≤ (len : ℚ) := by exact_mod_cast hlen
    linarith
  have hratio : (1 : ℚ) ≤ (v - min) / (max - min) :=
    (one_le_div (by linarith)).mpr (by linarith)
  have hxge : ((len : ℚ) - 1) ≤ (v - min) / (max - min) * ((len : ℚ) - 1) :=
    le_mul_of_one_le_left hnn hratio
  have hfl : (len : ℤ) - 1 ≤ ⌊(v - min) / (max - min) * ((len : ℚ) - 1)⌋ := by
    rw [Int.le_floor]
    push_cast
    exact hxge
  have hmin : Min.min ((len : ℤ) - 1)
      ⌊(v - min) / (max - min) * ((len : ℚ) - 1)⌋ = (len : ℤ) - 1 :=
    min_eq_left hfl
  rw [hmin]
  omega

/-- The clamped index is monotone in the value. -/
theorem getColorIndex_mono (v1 v2 min max : ℚ) (len : ℕ)
    (hr : min < max) (hv : v1 ≤ v2) :
    getColorIndex v1 min max len ≤ getColorIndex v2 min max len := by
  unfold getColorIndex
  rcases Nat.eq_zero_or_pos len with h0 | hpos
  · subst h0
    norm_num
  · have hnn : (0 : ℚ) ≤ (len : ℚ) - 1 := by
      have : (1 : ℚ) ≤ (len : ℚ) := by exact_mod_cast hpos
      linarith
    have hd : (v1 - min) / (max - min) ≤ (v2 - min) / (max - min) :=
      (div_le_div_iff_of_pos_right (by linarith)).mpr (by linarith)
    have hfl : ⌊(v1 - min) / (max - min) * ((len : ℚ) - 1)⌋ ≤
        ⌊(v2 - min) / (max - min) * ((len : ℚ) - 1)⌋ :=
      Int.floor_le_floor (mul_le_mul_of_nonneg_right hd hnn)
    have hmin := min_le_min (le_refl ((len : ℤ) - 1)) hfl
    have hmax := max_le_max (le_refl (0 : ℤ)) hmin
    omega

/-! ## Claim theorems -/

/-- C4: for every range and palette, `getColor` on a `null`, `undefined`
or `NaN` value returns the fixed sentinel `'#e5e7eb'`, which occurs in
none of the five predefined palettes; and for every non-missing value,
a degenerate range `min == max` yields the palette's middle entry
`palette[floor(length/2)]`. -/
theorem getColor_sentinel_and_degenerate_middle :
    (∀ (min max : ℚ) (palette : List String),
      getColor JSVal.null min max palette = some "#e5e7eb" ∧
      getColor JSVal.undef min max palette = some "#e5e7eb" ∧
      getColor (JSVal.num nan) min max palette = some "#e5e7eb") ∧
    ("#e5e7eb" ∉ COLOR_SCALES.blue ∧ "#e5e7eb" ∉ COLOR_SCALES.green ∧
      "#e5e7eb" ∉ COLOR_SCALES.orange ∧ "#e5e7eb" ∉ COLOR_SCALES.purple ∧
      "#e5e7eb" ∉ COLOR_SCALES.red) ∧
    (∀ v : JSVal, v ≠ JSVal.null → v ≠ JSVal.undef → v ≠ JSVal.num nan →
      ∀ (min : ℚ) (palette : List String),
        getColor v min min palette = palette.get? (palette.length / 2)) := by
  refine ⟨fun min max palette => ⟨rfl, rfl, rfl⟩, by decide, ?_⟩
  intro v h1 h2 h3 min palette
  match v with
  | JSVal.null => exact absurd rfl h1
  | JSVal.undef => exact absurd rfl h2
  | JSVal.num nan => exact absurd rfl h3
  | JSVal.num (fin q) => simp [getColor]
  | JSVal.num (inf b) => simp [getColor]

/-- Witness for C4: a concrete non-missing value on the degenerate range
`{min: 5, max: 5}` receives the middle entry of the blue palette. -/
theorem getColor_sentinel_and_degenerate_middle_witness :
    (JSVal.num (fin 3) ≠ JSVal.null) ∧ (JSVal.num (fin 3) ≠ JSVal.undef) ∧
    (JSVal.num (fin 3) ≠ JSVal.num nan) ∧
    getColor (JSVal.num (fin 3)) 5 5 COLOR_SCALES.blue =
      COLOR_SCALES.blue.get? (COLOR_SCALES.blue.length / 2) :=
  ⟨by decide, by decide, by decide,
    getColor_sentinel_and_degenerate_middle.2.2 (JSVal.num (fin 3))
      (by decide) (by decide) (by decide) 5 COLOR_SCALES.blue⟩

/-- C8: on the fixed range `{min: 0, max: 100}`, `getColor` at a finite
value is the palette lookup at `getColorIndex`, and for a palette of
length at least two that index is monotonically non-decreasing in the
value between `0` and `100`. -/
theorem getColor_index_monotone :
    ∀ palette : List String, 2 ≤ palette.length →
      (∀ v : ℚ, getColor (JSVal.num (fin v)) 0 100 palette =
        palette.get? (getColorIndex v 0 100 palette.length)) ∧
      (∀ v1 v2 : ℚ, 0 ≤ v1 → v1 ≤ v2 → v2 ≤ 100 →
        getColorIndex v1 0 100 palette.length ≤
          getColorIndex v2 0 100 palette.length) := by
  intro palette _
  constructor
  · intro v
    exact getColor_fin_eq v 0 100 palette (by norm_num)
  · intro v1 v2 _ h12 _
    exact getColorIndex_mono v1 v2 0 100 palette.length (by norm_num) h12

/-- Witness for C8: on the blue palette, the index at `25` is at most the
index at `75`, and `getColor` agrees with the index lookup at `25`. -/
theorem getColor_index_monotone_witness :
    getColor (JSVal.num (fin 25)) 0 100 COLOR_SCALES.blue =
      COLOR_SCALES.blue.get? (getColorIndex 25 0 100 COLOR_SCALES.blue.length) ∧
    getColorIndex 25 0 100 COLOR_SCALES.blue.length ≤
      getColorIndex 75 0 100 COLOR_SCALES.blue.length :=
  ⟨(getColor_index_monotone COLOR_SCALES.blue (by decide)).1 25,
    (getColor_index_monotone COLOR_SCALES.blue (by decide)).2 25 75
      (by norm_num) (by norm_num) (by norm_num)⟩

/-- C10: for a finite value, a non-degenerate range and a non-empty
palette, `getColor` always returns an element of the palette (the index
is clamped into bounds); values below the range receive the first entry
and values above the range receive the last entry. -/
theorem getColor_always_in_palette :
    ∀ (v min max : ℚ) (palette : List String), min < max →
      ∀ h2 : palette ≠ [],
      (∃ c ∈ palette, getColor (JSVal.num (fin v)) min max palette = some c) ∧
      (v < min → getColor (JSVal.num (fin v)) min max palette =
        some (palette.head h2)) ∧
      (max < v → getColor (JSVal.num (fin v)) min max palette =
        some (palette.getLast h2)) := by
  intro v min max palette h1 h2
  have hne : min ≠ max := ne_of_lt h1
  have hlen : 1 ≤ palette.length := List.length_pos.mpr h2
  have hbr := getColor_fin_eq v min max palette hne
  have hlt := getColorIndex_lt v min max palette.length hlen
  refine ⟨?_, ?_, ?_⟩
  · refine ⟨palette.get ⟨getColorIndex v min max palette.length, hlt⟩,
      List.get_mem _ _ hlt, ?_⟩
    rw [hbr, List.get?_eq_get hlt]
  · intro hv
    rw [hbr, getColorIndex_below v min max palette.length h1 hv]
    match palette, h2 with
    | c :: rest, _ => rfl
  · intro hv
    rw [hbr, getColorIndex_above v min max palette.length h1 hv hlen]
    rw [List.getLast_eq_get]
    exact List.get?_eq_get (by omega)

/-- Witness for C10: with the blue palette on `[0, 10]`, the value `-5`
(below the range) receives the first entry and `25` would receive an
element of the palette. -/
theorem getColor_always_in_palette_witness :
    (∃ c ∈ COLOR_SCALES.blue,
      getColor (JSVal.num (fin (-5))) 0 10 COLOR_SCALES.blue = some c) ∧
    ((-5 : ℚ) < 0 → getColor (JSVal.num (fin (-5))) 0 10 COLOR_SCALES.blue =
      some (COLOR_SCALES.blue.head (by decide))) ∧
    ((10 : ℚ) < -5 → getColor (JSVal.num (fin (-5))) 0 10 COLOR_SCALES.blue =
      some (COLOR_SCALES.blue.getLast (by decide))) :=
  getColor_always_in_palette (-5) 0 10 COLOR_SCALES.blue (by norm_num)
    (by decide)

/-- C3, counterexample: on an absent bounding box,
`calculateViewStateForBounds` returns `DEFAULT_VIEW_STATE` as-is, which
carries no transition descriptor at all — refuting the claim that every
result carries a 1500 ms fly-to transition descriptor. -/
theorem viewState_absent_box_lacks_transition :
    calculateViewStateForBounds none = DEFAULT_VIEW_STATE ∧
    (calculateViewStateForBounds none).transitionDuration ≠ some 1500 ∧
    (calculateViewStateForBounds none).transitionInterpolator ≠
      some Interpolator.flyTo := by
  refine ⟨rfl, ?_, ?_⟩ <;> simp [calculateViewStateForBounds, DEFAULT_VIEW_STATE]

/-- C3 as amended: every result of `calculateViewStateForBounds` has
pitch 0 and bearing 0; every result for a *present* bounding box carries
the fixed 1500 ms fly-to transition descriptor; the absent-box result is
exactly `DEFAULT_VIEW_STATE`, which carries no transition descriptor. -/
theorem viewState_pitch_bearing_transition :
    (∀ b : Option BBox, (calculateViewStateForBounds b).pitch = 0 ∧
      (calculateViewStateForBounds b).bearing = 0) ∧
    (∀ bb : BBox,
      (calculateViewStateForBounds (some bb)).transitionDuration = some 1500 ∧
      (calculateViewStateForBounds (some bb)).transitionInterpolator =
        some Interpolator.flyTo) ∧
    calculateViewStateForBounds none = DEFAULT_VIEW_STATE ∧
    DEFAULT_VIEW_STATE.transitionDuration = none ∧
    DEFAULT_VIEW_STATE.transitionInterpolator = none := by
  refine ⟨fun b => ?_, fun bb => ⟨rfl, rfl⟩, rfl, rfl, rfl⟩
  cases b with
  | none => exact ⟨rfl, rfl⟩
  | some bb => exact ⟨rfl, rfl⟩

/-- The concrete 1°×1° square feature used for C5: a GeoJSON polygon with
one ring. -/
def squareFeature : Feature :=
  { id := "square"
    coordinates := Coords.arr [Coords.arr
      [Coords.pt 0 0, Coords.pt 1 0, Coords.pt 1 1,
       Coords.pt 0 1, Coords.pt 0 0]] }

/-- C5: the zoom of `calculateViewStateForBounds` is exactly the step
function `zoomFor` of `max(latitude span, longitude span)`; that step
function is non-increasing, gives the highest tier `8` to spans below
one degree and the floor `4.5` to spans of at least eight degrees; and
`getStateBoundingBox` followed by `calculateViewStateForBounds` on a
square region spanning exactly one degree on each axis yields zoom `7`
(the `≥1°, <2°` tier), not the `<1°` tier's `8`. -/
theorem zoom_monotone_step_function :
    (∀ bb : BBox, (calculateViewStateForBounds (some bb)).zoom =
      zoomFor (jmax (jsub bb.maxLat bb.minLat) (jsub bb.maxLng bb.minLng))) ∧
    (∀ a b : ℚ, a ≤ b → zoomFor (fin b) ≤ zoomFor (fin a)) ∧
    (∀ a : ℚ, a < 1 → zoomFor (fin a) = 8) ∧
    (∀ a : ℚ, 8 ≤ a → zoomFor (fin a) = 4.5) ∧
    getStateBoundingBox (some [squareFeature]) "square" =
      some { minLng := fin 0, maxLng := fin 1, minLat := fin 0, maxLat := fin 1 } ∧
    (calculateViewStateForBounds
      (getStateBoundingBox (some [squareFeature]) "square")).zoom = 7 ∧
    (7 : ℚ) ≠ 8 := by
  have hbb : getStateBoundingBox (some [squareFeature]) "square" =
      some { minLng := fin 0, maxLng := fin 1, minLat := fin 0, maxLat := fin 1 } := by
    simp [getStateBoundingBox, squareFeature, List.find?, processCoordinates,
      processCoordList, jmin, jmax]
  refine ⟨fun bb => rfl, ?_, ?_, ?_, hbb, ?_, by norm_num⟩
  · intro a b hab
    simp only [zoomFor, jlt, decide_eq_true_eq]
    split_ifs <;> norm_num <;> linarith
  · intro a ha
    simp [zoomFor, jlt, ha]
  · intro a ha
    simp only [zoomFor, jlt, decide_eq_true_eq]
    split_ifs <;> first | rfl | linarith
  · rw [hbb]
    simp [calculateViewStateForBounds, jsub, jadd, jneg, jmax, zoomFor, jlt]

/-- Witness for C5: monotonicity and the two tier facts at concrete
spans. -/
theorem zoom_monotone_step_function_witness :
    zoomFor (fin 3) ≤ zoomFor (fin 2) ∧ zoomFor (fin (1/2)) = 8 ∧
    zoomFor (fin 9) = 4.5 :=
  ⟨zoom_monotone_step_function.2.1 2 3 (by norm_num),
    zoom_monotone_step_function.2.2.1 (1/2) (by norm_num),
    zoom_monotone_step_function.2.2.2.1 9 (by norm_num)⟩

/-- C6, counterexample: with a two-color palette, `generateLegend` at
`stepCount = 1` colors its single interval with the *last* palette entry
(the color-index arithmetic is `floor(0/0 * …) = NaN`, so the `||`
fallback to the final entry fires), not the first entry. -/
theorem legend_single_step_color_counterexample :
    generateLegend 0 10 1 ["#eff6ff", "#1e40af"] =
      [{ min := 0, max := 10, color := some "#1e40af" }] ∧
    some "#1e40af" ≠ some "#eff6ff" := by
  constructor
  · have hr : List.range 1 = [0] := rfl
    simp only [generateLegend, hr, List.map_cons, List.map_nil]
    norm_num [jsRound, jdiv, jmul, jfloor, jsIndex, jsOr]
  · decide

/-- C6 as amended: for every range with `min ≤ max` and every non-empty
palette, `generateLegend(min, max, 1, palette)` returns one interval
whose stored bounds are the rounded `min` and `max` — spanning the whole
range — and whose color is the palette's *last* entry, selected by the
fallback after the `0/0 = NaN` color index. -/
theorem legend_single_step_last_color :
    ∀ (min max : ℚ) (palette : List String), min ≤ max → palette ≠ [] →
      generateLegend min max 1 palette =
        [{ min := jsRound min, max := jsRound max,
           color := palette.get? (palette.length - 1) }] := by
  intro mn mx palette h1 h2
  have hr : List.range 1 = [0] := rfl
  simp only [generateLegend, hr, List.map_cons, List.map_nil]
  push_cast
  norm_num
  simp [jdiv, jmul, jfloor, jsIndex, jsOr]

/-- Witness for C6 (amended): the single interval over `[0, 10]` with the
blue palette is colored with the palette's last entry. -/
theorem legend_single_step_last_color_witness :
    generateLegend 0 10 1 COLOR_SCALES.blue =
      [{ min := jsRound 0, max := jsRound 10,
         color := COLOR_SCALES.blue.get? (COLOR_SCALES.blue.length - 1) }] :=
  legend_single_step_last_color 0 10 COLOR_SCALES.blue (by norm_num) (by decide)

/-- C9, counterexample: `Infinity` is not caught by the
`value == null || isNaN(value)` guard, so `formatNumber` renders it as
the infinity symbol instead of the `'N/A'` sentinel — refuting the claim
that every non-finite value yields `'N/A'`. -/
theorem formatNumber_infinity_counterexample :
    formatNumber (JSVal.num (inf true)) "number" = "∞" ∧
    formatNumber (JSVal.num (inf true)) "number" ≠ "N/A" := by
  constructor
  · rfl
  · decide

/-- C9 as amended: `formatNumber` returns the `'N/A'` sentinel — and is
total, never throwing — exactly for `null`, `undefined` and `NaN` values
(not for infinities), for every unit kind; and every unrecognized (or
omitted, the source default) kind is formatted identically to
`'number'`. -/
theorem formatNumber_sentinel_and_default_fallback :
    (∀ kind : String, formatNumber JSVal.null kind = "N/A" ∧
      formatNumber JSVal.undef kind = "N/A" ∧
      formatNumber (JSVal.num nan) kind = "N/A") ∧
    (∀ (v : JSVal) (kind : String), kind ≠ "percent" → kind ≠ "currency" →
      formatNumber v kind = formatNumber v "number") := by
  refine ⟨fun kind => ⟨rfl, rfl, rfl⟩, ?_⟩
  intro v kind hp hc
  match v with
  | JSVal.null => rfl
  | JSVal.undef => rfl
  | JSVal.num nan => rfl
  | JSVal.num (fin q) =>
    show (if kind = "percent" then _ else if kind = "currency" then _ else _) = _
    rw [if_neg hp, if_neg hc]
    rfl
  | JSVal.num (inf b) =>
    show (if kind = "percent" then _ else if kind = "currency" then _ else _) = _
    rw [if_neg hp, if_neg hc]
    rfl

/-- Witness for C9 (amended): the sentinel at an arbitrary kind, and the
fallback for the unrecognized kind `'weird'` on a concrete number. -/
theorem formatNumber_sentinel_and_default_fallback_witness :
    formatNumber JSVal.null "anything" = "N/A" ∧
    formatNumber (JSVal.num (fin 5)) "weird" =
      formatNumber (JSVal.num (fin 5)) "number" :=
  ⟨(formatNumber_sentinel_and_default_fallback.1 "anything").1,
    formatNumber_sentinel_and_default_fallback.2 (JSVal.num (fin 5)) "weird"
      (by decide) (by decide)⟩

/-- The `i`-th legend entry is built from the unrounded boundaries
`legendBound i` and `legendBound (i+1)`. -/
theorem generateLegend_get? (min max : ℚ) (n : ℕ) (palette : List String)
    (i : ℕ) (hi : i < n) :
    ((generateLegend min max n palette).get? i).map LegendItem.min =
      some (jsRound (legendBound min max n i)) ∧
    ((generateLegend min max n palette).get? i).map LegendItem.max =
      some (jsRound (legendBound min max n (i + 1))) := by
  have hcast : ((i + 1 : ℕ) : ℚ) = (i : ℚ) + 1 := by push_cast; ring
  simp only [generateLegend, List.get?_map, List.get?_range hi,
    Option.map_some', legendBound, hcast]
  exact ⟨trivial, trivial⟩

/-- C1: `generateLegend(min, max, n, palette)` with `min ≤ max`, `n ≥ 1`
and a non-empty palette returns exactly `n` intervals; each stored bound
is the rounding of the corresponding unrounded boundary (so adjacent
intervals share a stored bound — contiguity, no gaps or overlaps); and
the unrounded boundaries used by the bucketing arithmetic start at `min`,
end at `max`, are non-decreasing, and advance by the constant width
`(max - min) / n`. -/
theorem legend_intervals_contiguous_and_span :
    ∀ (min max : ℚ) (n : ℕ) (palette : List String),
      min ≤ max → 1 ≤ n → palette ≠ [] →
      (generateLegend min max n palette).length = n ∧
      (∀ i, i < n →
        ((generateLegend min max n palette).get? i).map LegendItem.min =
          some (jsRound (legendBound min max n i)) ∧
        ((generateLegend min max n palette).get? i).map LegendItem.max =
          some (jsRound (legendBound min max n (i + 1)))) ∧
      (∀ i, i + 1 < n →
        ((generateLegend min max n palette).get? i).map LegendItem.max =
          ((generateLegend min max n palette).get? (i + 1)).map LegendItem.min) ∧
      legendBound min max n 0 = min ∧
      legendBound min max n n = max ∧
      (∀ i : ℕ, legendBound min max n i ≤ legendBound min max n (i + 1)) ∧
      (∀ i : ℕ, legendBound min max n (i + 1) - legendBound min max n i =
        (max - min) / (n : ℚ)) := by
  intro mn mx n palette h1 h2 h3
  have hn : ((n : ℚ)) ≠ 0 := Nat.cast_ne_zero.mpr (by omega)
  refine ⟨?_, ?_, ?_, ?_, ?_, ?_, ?_⟩
  · simp [generateLegend]
  · intro i hi
    exact generateLegend_get? mn mx n palette i hi
  · intro i hi
    rw [(generateLegend_get? mn mx n palette i (by omega)).2,
      (generateLegend_get? mn mx n palette (i + 1) hi).1]
  · simp [legendBound]
  · simp only [legendBound]
    field_simp
  · intro i
    have hstep : (0 : ℚ) ≤ (mx - mn) / (n : ℚ) :=
      div_nonneg (by linarith) (by positivity)
    have : ((i : ℚ)) ≤ ((i : ℚ)) + 1 := by linarith
    simp only [legendBound]
    push_cast
    nlinarith
  · intro i
    simp only [legendBound]
    push_cast
    ring

/-- Witness for C1: the legend over `[0, 10]` in three steps with the
blue palette. -/
theorem legend_intervals_contiguous_and_span_witness :
    (generateLegend 0 10 3 COLOR_SCALES.blue).length = 3 ∧
    legendBound 0 10 3 0 = 0 ∧ legendBound 0 10 3 3 = 10 :=
  ⟨(legend_intervals_contiguous_and_span 0 10 3 COLOR_SCALES.blue
      (by norm_num) (by norm_num) (by decide)).1,
    (legend_intervals_contiguous_and_span 0 10 3 COLOR_SCALES.blue
      (by norm_num) (by norm_num) (by decide)).2.2.2.1,
    (legend_intervals_contiguous_and_span 0 10 3 COLOR_SCALES.blue
      (by norm_num) (by norm_num) (by decide)).2.2.2.2.1⟩

/-! ## Ordering facts about `Math.min` / `Math.max` folds -/

theorem jle_refl (a : JSNum) (ha : a ≠ nan) : jle a a = true := by
  rcases a with q | p | _
  · simp [jle]
  · cases p <;> simp [jle]
  · exact absurd rfl ha

theorem jle_trans {a b c : JSNum} (h1 : jle a b = true) (h2 : jle b c = true) :
    jle a c = true := by
  rcases a with qa | pa | _ <;> rcases b with qb | pb | _ <;>
    rcases c with qc | pc | _ <;>
    first
      | (cases pa <;> cases pb <;> cases pc <;> simp_all [jle])
      | (cases pa <;> cases pb <;> simp_all [jle])
      | (cases pa <;> cases pc <;> simp_all [jle])
      | (cases pb <;> cases pc <;> simp_all [jle])
      | (cases pa <;> simp_all [jle])
      | (cases pb <;> simp_all [jle])
      | (cases pc <;> simp_all [jle])
      | (simp_all [jle]; try linarith)

theorem jle_inf_true_left {x : JSNum} (h : jle (inf true) x = true) :
    x = inf true := by
  rcases x with q | p | _
  · simp [jle] at h
  · cases p
    · simp [jle] at h
    · rfl
  · simp [jle] at h

theorem jle_inf_false_right {x : JSNum} (h : jle x (inf false) = true) :
    x = inf false := by
  rcases x with q | p | _
  · simp [jle] at h
  · cases p
    · rfl
    · simp [jle] at h
  · simp [jle] at h

theorem jmin_ne_nan {a b : JSNum} (ha : a ≠ nan) (hb : b ≠ nan) :
    jmin a b ≠ nan := by
  rcases a with qa | pa | _ <;> rcases b with qb | pb | _ <;>
    first
      | (cases pa <;> cases pb <;> simp_all [jmin])
      | (cases pa <;> simp_all [jmin])
      | (cases pb <;> simp_all [jmin])
      | simp_all [jmin]

theorem jmax_ne_nan {a b : JSNum} (ha : a ≠ nan) (hb : b ≠ nan) :
    jmax a b ≠ nan := by
  rcases a with qa | pa | _ <;> rcases b with qb | pb | _ <;>
    first
      | (cases pa <;> cases pb <;> simp_all [jmax])
      | (cases pa <;> simp_all [jmax])
      | (cases pb <;> simp_all [jmax])
      | simp_all [jmax]

theorem jmin_eq_or {a b : JSNum} (ha : a ≠ nan) (hb : b ≠ nan) :
    jmin a b = a ∨ jmin a b = b := by
  rcases a with qa | pa | _ <;> rcases b with qb | pb | _
  · rcases le_total qa qb with h | h
    · exact Or.inl (by simp [jmin, min_eq_left h])
    · exact Or.inr (by simp [jmin, min_eq_right h])
  · cases pb
    · exact Or.inr rfl
    · exact Or.inl rfl
  · exact absurd rfl hb
  · cases pa
    · exact Or.inl rfl
    · exact Or.inr rfl
  · cases pa <;> cases pb <;> simp [jmin]
  · exact absurd rfl hb
  · exact absurd rfl ha
  · exact absurd rfl ha
  · exact absurd rfl ha

theorem jmax_eq_or {a b : JSNum} (ha : a ≠ nan) (hb : b ≠ nan) :
    jmax a b = a ∨ jmax a b = b := by
  rcases a with qa | pa | _ <;> rcases b with qb | pb | _
  · rcases le_total qa qb with h | h
    · exact Or.inr (by simp [jmax, max_eq_right h])
    · exact Or.inl (by simp [jmax, max_eq_left h])
  · cases pb
    · exact Or.inl rfl
    · exact Or.inr rfl
  · exact absurd rfl hb
  · cases pa
    · exact Or.inr rfl
    · exact Or.inl rfl
  · cases pa <;> cases pb <;> simp [jmax]
  · exact absurd rfl hb
  · exact absurd rfl ha
  · exact absurd rfl ha
  · exact absurd rfl ha

theorem jle_jmin_left {a b : JSNum} (ha : a ≠ nan) (hb : b ≠ nan) :
    jle (jmin a b) a = true := by
  rcases a with qa | pa | _ <;> rcases b with qb | pb | _ <;>
    first
      | (cases pa <;> cases pb <;> simp_all [jmin, jle])
      | (cases pa <;> simp_all [jmin, jle])
      | (cases pb <;> simp_all [jmin, jle])
      | simp_all [jmin, jle]

theorem jle_jmin_right {a b : JSNum} (ha : a ≠ nan) (hb : b ≠ nan) :
    jle (jmin a b) b = true := by
  rcases a with qa | pa | _ <;> rcases b with qb | pb | _ <;>
    first
      | (cases pa <;> cases pb <;> simp_all [jmin, jle])
      | (cases pa <;> simp_all [jmin, jle])
      | (cases pb <;> simp_all [jmin, jle])
      | simp_all [jmin, jle]

theorem jle_left_jmax {a b : JSNum} (ha : a ≠ nan) (hb : b ≠ nan) :
    jle a (jmax a b) = true := by
  rcases a with qa | pa | _ <;> rcases b with qb | pb | _ <;>
    first
      | (cases pa <;> cases pb <;> simp_all [jmax, jle])
      | (cases pa <;> simp_all [jmax, jle])
      | (cases pb <;> simp_all [jmax, jle])
      | simp_all [jmax, jle]

theorem jle_right_jmax {a b : JSNum} (ha : a ≠ nan) (hb : b ≠ nan) :
    jle b (jmax a b) = true := by
  rcases a with qa | pa | _ <;> rcases b with qb | pb | _ <;>
    first
      | (cases pa <;> cases pb <;> simp_all [jmax, jle])
      | (cases pa <;> simp_all [jmax, jle])
      | (cases pb <;> simp_all [jmax, jle])
      | simp_all [jmax, jle]

/-- A `Math.min` fold (over `NaN`-free values, from a `NaN`-free seed)
yields the seed or a list element, and is a lower bound of both. -/
theorem foldl_jmin_spec (l : List JSNum) (a : JSNum) (ha : a ≠ nan)
    (hl : ∀ x ∈ l, x ≠ nan) :
    (l.foldl jmin a = a ∨ l.foldl jmin a ∈ l) ∧
    jle (l.foldl jmin a) a = true ∧
    (∀ x ∈ l, jle (l.foldl jmin a) x = true) := by
  induction l generalizing a with
  | nil => exact ⟨Or.inl rfl, jle_refl a ha, fun x hx => absurd hx (by simp)⟩
  | cons b t ih =>
    have hb : b ≠ nan := hl b (by simp)
    have ht : ∀ x ∈ t, x ≠ nan := fun x hx => hl x (by simp [hx])
    have hm : jmin a b ≠ nan := jmin_ne_nan ha hb
    obtain ⟨hmem, hle, hall⟩ := ih (jmin a b) hm ht
    have hris : List.foldl jmin (jmin a b) t = (b :: t).foldl jmin a := rfl
    refine ⟨?_, ?_, ?_⟩
    · rcases hmem with h | h
      · rcases jmin_eq_or ha hb with h' | h'
        · exact Or.inl (by rw [← hris, h, h'])
        · exact Or.inr (by rw [← hris, h, h']; exact List.mem_cons_self b t)
      · exact Or.inr (by rw [← hris]; exact List.mem_cons_of_mem b h)
    · exact jle_trans hle (jle_jmin_left ha hb)
    · intro x hx
      rcases List.mem_cons.mp hx with h | h
      · subst h
        exact jle_trans hle (jle_jmin_right ha hb)
      · exact hall x h

/-- A `Math.max` fold (over `NaN`-free values, from a `NaN`-free seed)
yields the seed or a list element, and is an upper bound of both. -/
theorem foldl_jmax_spec (l : List JSNum) (a : JSNum) (ha : a ≠ nan)
    (hl : ∀ x ∈ l, x ≠ nan) :
    (l.foldl jmax a = a ∨ l.foldl jmax a ∈ l) ∧
    jle a (l.foldl jmax a) = true ∧
    (∀ x ∈ l, jle x (l.foldl jmax a) = true) := by
  induction l generalizing a with
  | nil => exact ⟨Or.inl rfl, jle_refl a ha, fun x hx => absurd hx (by simp)⟩
  | cons b t ih =>
    have hb : b ≠ nan := hl b (by simp)
    have ht : ∀ x ∈ t, x ≠ nan := fun x hx => hl x (by simp [hx])
    have hm : jmax a b ≠ nan := jmax_ne_nan ha hb
    obtain ⟨hmem, hle, hall⟩ := ih (jmax a b) hm ht
    have hris : List.foldl jmax (jmax a b) t = (b :: t).foldl jmax a := rfl
    refine ⟨?_, ?_, ?_⟩
    · rcases hmem with h | h
      · rcases jmax_eq_or ha hb with h' | h'
        · exact Or.inl (by rw [← hris, h, h'])
        · exact Or.inr (by rw [← hris, h, h']; exact List.mem_cons_self b t)
      · exact Or.inr (by rw [← hris]; exact List.mem_cons_of_mem b h)
    · exact jle_trans (jle_left_jmax ha hb) hle
    · intro x hx
      rcases List.mem_cons.mp hx with h | h
      · subst h
        exact jle_trans (jle_right_jmax ha hb) hle
      · exact hall x h

/-- A value retained by the `getDataRange` filter is a non-`NaN` number
coming from some entry of the map. -/
theorem mem_filterMap_jsValidNum {data : List (String × JSVal)} {n : JSNum}
    (h : n ∈ (data.map Prod.snd).filterMap jsValidNum) :
    n ≠ nan ∧ ∃ p ∈ data, p.2 = JSVal.num n := by
  obtain ⟨v, hv, hvn⟩ := List.mem_filterMap.mp h
  obtain ⟨p, hp, hpv⟩ := List.mem_map.mp hv
  have hv' : v = JSVal.num n ∧ n ≠ nan := by
    rcases v with m | _ | _
    · rcases m with q | pb | _
      · simp only [jsValidNum, Option.some.injEq] at hvn
        exact ⟨by rw [hvn], by rw [← hvn]; simp⟩
      · simp only [jsValidNum, Option.some.injEq] at hvn
        exact ⟨by rw [hvn], by rw [← hvn]; simp⟩
      · simp [jsValidNum] at hvn
    · simp [jsValidNum] at hvn
    · simp [jsValidNum] at hvn
  exact ⟨hv'.2, p, hp, by rw [hpv, hv'.1]⟩

/-- When at least one entry survives the filter, the `getDataRange`
result satisfies `min ≤ max` and both extremes are retained values. -/
theorem getDataRange_minmax_spec (data : List (String × JSVal))
    (hne : (data.map Prod.snd).filterMap jsValidNum ≠ []) :
    jle (getDataRange data).min (getDataRange data).max = true ∧
    (getDataRange data).min ∈ (data.map Prod.snd).filterMap jsValidNum ∧
    (getDataRange data).max ∈ (data.map Prod.snd).filterMap jsValidNum := by
  have hl : ∀ x ∈ (data.map Prod.snd).filterMap jsValidNum, x ≠ nan :=
    fun x hx => (mem_filterMap_jsValidNum hx).1
  have hie : ¬ ((data.map Prod.snd).filterMap jsValidNum).isEmpty = true := by
    simp only [List.isEmpty_iff]
    exact hne
  have hres : getDataRange data =
      { min := ((data.map Prod.snd).filterMap jsValidNum).foldl jmin (inf true)
        max := ((data.map Prod.snd).filterMap jsValidNum).foldl jmax (inf false) } := by
    simp only [getDataRange]
    rw [if_neg hie]
  obtain ⟨hminmem, _, hminall⟩ :=
    foldl_jmin_spec ((data.map Prod.snd).filterMap jsValidNum) (inf true)
      (by simp) hl
  obtain ⟨hmaxmem, _, hmaxall⟩ :=
    foldl_jmax_spec ((data.map Prod.snd).filterMap jsValidNum) (inf false)
      (by simp) hl
  obtain ⟨x₀, hx₀⟩ := List.exists_mem_of_ne_nil _ hne
  have hminmem' : ((data.map Prod.snd).filterMap jsValidNum).foldl jmin
      (inf true) ∈ (data.map Prod.snd).filterMap jsValidNum := by
    rcases hminmem with h | h
    · have hx : x₀ = inf true := jle_inf_true_left (h ▸ hminall x₀ hx₀)
      rw [h, ← hx]
      exact hx₀
    · exact h
  have hmaxmem' : ((data.map Prod.snd).filterMap jsValidNum).foldl jmax
      (inf false) ∈ (data.map Prod.snd).filterMap jsValidNum := by
    rcases hmaxmem with h | h
    · have hx : x₀ = inf false := jle_inf_false_right (h ▸ hmaxall x₀ hx₀)
      rw [h, ← hx]
      exact hx₀
    · exact h
  rw [hres]
  exact ⟨hminall _ hmaxmem', hminmem', hmaxmem'⟩

/-- C7: `getDataRange` returns `{min: 0, max: 0}` whenever no entry
survives the filter (including the empty map); and whenever at least one
entry survives, the returned `min` is `≤` the returned `max` and both are
values actually present in the map. -/
theorem dataRange_empty_policy_and_minmax_present :
    (∀ data : List (String × JSVal),
      (data.map Prod.snd).filterMap jsValidNum = [] →
      getDataRange data = { min := fin 0, max := fin 0 }) ∧
    (∀ data : List (String × JSVal),
      (data.map Prod.snd).filterMap jsValidNum ≠ [] →
      jle (getDataRange data).min (getDataRange data).max = true ∧
      (∃ p ∈ data, p.2 = JSVal.num (getDataRange data).min) ∧
      (∃ p ∈ data, p.2 = JSVal.num (getDataRange data).max)) := by
  constructor
  · intro data h
    simp [getDataRange, h]
  · intro data hne
    obtain ⟨h1, h2, h3⟩ := getDataRange_minmax_spec data hne
    exact ⟨h1, (mem_filterMap_jsValidNum h2).2, (mem_filterMap_jsValidNum h3).2⟩

/-- Witness for C7: a concrete two-entry map (one entry `null`) has
`min ≤ max` with both extremes present, and the empty map maps to the
zero range. -/
theorem dataRange_empty_policy_and_minmax_present_witness :
    getDataRange ([] : List (String × JSVal)) = { min := fin 0, max := fin 0 } ∧
    (([("a", JSVal.num (fin 3)), ("b", JSVal.null)].map
        Prod.snd).filterMap jsValidNum ≠ [] ∧
      (jle (getDataRange [("a", JSVal.num (fin 3)), ("b", JSVal.null)]).min
        (getDataRange [("a", JSVal.num (fin 3)), ("b", JSVal.null)]).max = true ∧
      (∃ p ∈ [("a", JSVal.num (fin 3)), ("b", JSVal.null)],
        p.2 = JSVal.num (getDataRange
          [("a", JSVal.num (fin 3)), ("b", JSVal.null)]).min) ∧
      (∃ p ∈ [("a", JSVal.num (fin 3)), ("b", JSVal.null)],
        p.2 = JSVal.num (getDataRange
          [("a", JSVal.num (fin 3)), ("b", JSVal.null)]).max))) :=
  ⟨dataRange_empty_policy_and_minmax_present.1 [] rfl,
    by decide,
    dataRange_empty_policy_and_minmax_present.2
      [("a", JSVal.num (fin 3)), ("b", JSVal.null)] (by decide)⟩

/-- C2, counterexample: `Infinity` passes the `v != null && !isNaN(v)`
filter, so a map whose only value is `Infinity` yields an *infinite* min
and max — refuting the claim that the returned extremes are always
finite. -/
theorem dataRange_infinite_input_counterexample :
    getDataRange [("a", JSVal.num (inf true))] =
      { min := inf true, max := inf true } ∧
    isFin (getDataRange [("a", JSVal.num (inf true))]).min = false ∧
    isFin (getDataRange [("a", JSVal.num (inf true))]).max = false := by
  decide

/-- C2 as amended: the `getDataRange` filter retains exactly the numeric
non-`NaN` entries — `null`, `undefined` and `NaN` are dropped, but
`±Infinity` passes — and whenever the map contains no infinite value the
returned min and max are finite. -/
theorem dataRange_filters_and_finite_without_infinities :
    (∀ (v : JSVal) (n : JSNum),
      jsValidNum v = some n ↔ (v = JSVal.num n ∧ n ≠ nan)) ∧
    (∀ data : List (String × JSVal),
      (∀ p ∈ data, p.2 ≠ JSVal.num (inf true) ∧ p.2 ≠ JSVal.num (inf false)) →
      isFin (getDataRange data).min = true ∧
      isFin (getDataRange data).max = true) := by
  constructor
  · intro v n
    constructor
    · intro h
      rcases v with m | _ | _
      · rcases m with q | pb | _
        · simp only [jsValidNum, Option.some.injEq] at h
          exact ⟨by rw [h], by rw [← h]; simp⟩
        · simp only [jsValidNum, Option.some.injEq] at h
          exact ⟨by rw [h], by rw [← h]; simp⟩
        · simp [jsValidNum] at h
      · simp [jsValidNum] at h
      · simp [jsValidNum] at h
    · rintro ⟨rfl, hn⟩
      rcases n with q | pb | _
      · rfl
      · rfl
      · exact absurd rfl hn
  · intro data hinf
    by_cases hcase : (data.map Prod.snd).filterMap jsValidNum = []
    · have : getDataRange data = { min := fin 0, max := fin 0 } := by
        simp [getDataRange, hcase]
      rw [this]
      exact ⟨rfl, rfl⟩
    · obtain ⟨_, h2, h3⟩ := getDataRange_minmax_spec data hcase
      constructor
      · obtain ⟨hnan, p, hp, hpv⟩ := mem_filterMap_jsValidNum h2
        rcases hmin : (getDataRange data).min with q | pb | _
        · rfl
        · cases pb
          · exact absurd (hpv.trans (by rw [hmin])) (hinf p hp).2
          · exact absurd (hpv.trans (by rw [hmin])) (hinf p hp).1
        · exact absurd hmin hnan
      · obtain ⟨hnan, p, hp, hpv⟩ := mem_filterMap_jsValidNum h3
        rcases hmax : (getDataRange data).max with q | pb | _
        · rfl
        · cases pb
          · exact absurd (hpv.trans (by rw [hmax])) (hinf p hp).2
          · exact absurd (hpv.trans (by rw [hmax])) (hinf p hp).1
        · exact absurd hmax hnan

/-- Witness for C2 (amended): the filter equation at a concrete entry,
and finite extremes for a concrete infinity-free map. -/
theorem dataRange_filters_and_finite_without_infinities_witness :
    (jsValidNum (JSVal.num (fin 7)) = some (fin 7) ↔
      (JSVal.num (fin 7) = JSVal.num (fin 7) ∧ (fin 7 : JSNum) ≠ nan)) ∧
    ((∀ p ∈ [("a", JSVal.num (fin 2))],
        p.2 ≠ JSVal.num (inf true) ∧ p.2 ≠ JSVal.num (inf false)) ∧
      (isFin (getDataRange [("a", JSVal.num (fin 2))]).min = true ∧
       isFin (getDataRange [("a", JSVal.num (fin 2))]).max = true)) :=
  ⟨dataRange_filters_and_finite_without_infinities.1 (JSVal.num (fin 7)) (fin 7),
    by decide,
    dataRange_filters_and_finite_without_infinities.2
      [("a", JSVal.num (fin 2))] (by decide)⟩

end Carto
